import Mathlib

set_option linter.unusedSectionVars false

/-!
Shallow embedding of `src/DataBase.py`: a minimal persistent key-value store
(`DataBase` → `SerializedDataBase` → `SynchronizedDataBase`) with a
drain-all-permits reader/writer protocol.

Python dicts are modelled as association lists with unique keys (keys are
unique in a dict; `set_value` only inserts when absent, so uniqueness is
preserved from the empty dict).  Machine-level details being modelled:
  * `pickle.load` raises `EOFError` on a truncated stream and
    `pickle.UnpicklingError` on corrupt bytes; `open` raises
    `FileNotFoundError` on a missing file and `PermissionError` on an
    unreadable one.  `SerializedDataBase.load` catches exactly
    `(FileNotFoundError, EOFError)`.
  * The synchronized wrapper's lock attributes are only assigned for modes
    `'threads'` and `'processes'`; any other mode leaves them unset so later
    attribute access raises `AttributeError`.
-/

namespace DB

variable {K V : Type} [DecidableEq K]

/-- Association-list lookup: the model of `dict.get(key, None)` /
`key in dict` membership testing. -/
def lookupA (k : K) : List (K × V) → Option V
  | [] => none
  | (k', v) :: rest => if k = k' then some v else lookupA k rest

/-- Association-list removal of a key: the model of `dict.pop(key)`
(a dict holds at most one binding per key, so removing every pair with
this key is the same operation). -/
def removeKey (k : K) : List (K × V) → List (K × V)
  | [] => []
  | (k', v) :: rest => if k' = k then removeKey k rest else (k', v) :: removeKey k rest

/-- `class DataBase`: a simple in-memory key-value database,
`self.data = {}` at construction. -/
structure DataBase (K V : Type) where
  data : List (K × V)
  deriving DecidableEq

/-- `DataBase.__init__`: `self.data = {}`. -/
def DataBase.empty (K V : Type) : DataBase K V := ⟨[]⟩

/-- `DataBase.set_value(key, value)`: returns `False` and leaves the dict
alone if the key already exists, else stores the binding and returns
`True`.  (Python dict insertion appends in insertion order.) -/
def set_value (db : DataBase K V) (k : K) (v : V) : Bool × DataBase K V :=
  if (lookupA k db.data).isSome then (false, db)
  else (true, ⟨db.data ++ [(k, v)]⟩)

/-- `DataBase.get_value(key)`: `self.data.get(key, None)` when
`key in self.data`, implicitly `None` otherwise. -/
def get_value (db : DataBase K V) (k : K) : Option V :=
  if (lookupA k db.data).isSome then lookupA k db.data else none

/-- `DataBase.delete(key)`: `self.data.pop(key, None)` when
`key in self.data` (returns the removed value), implicitly `None`
otherwise (dict unchanged). -/
def delete (db : DataBase K V) (k : K) : Option V × DataBase K V :=
  if (lookupA k db.data).isSome then (lookupA k db.data, ⟨removeKey k db.data⟩)
  else (none, db)

/-! ### Basic lookup lemmas -/

theorem get_value_eq_lookupA (db : DataBase K V) (k : K) :
    get_value db k = lookupA k db.data := by
  unfold get_value
  cases h : lookupA k db.data <;> simp [h]

theorem lookupA_append_self (d : List (K × V)) (k : K) (v : V)
    (h : lookupA k d = none) : lookupA k (d ++ [(k, v)]) = some v := by
  induction d with
  | nil => simp [lookupA]
  | cons p rest ih =>
    obtain ⟨k', v'⟩ := p
    by_cases hk : k = k'
    · simp [lookupA, hk] at h
    · simp [lookupA, hk] at h ⊢
      exact ih h

theorem lookupA_append_other (d : List (K × V)) (k k' : K) (v : V)
    (h : k' ≠ k) : lookupA k' (d ++ [(k, v)]) = lookupA k' d := by
  induction d with
  | nil => simp [lookupA, h]
  | cons p rest ih =>
    obtain ⟨k₀, v₀⟩ := p
    by_cases hk : k' = k₀
    · simp [lookupA, hk]
    · simp [lookupA, hk, ih]

theorem lookupA_removeKey_self (d : List (K × V)) (k : K) :
    lookupA k (removeKey k d) = none := by
  induction d with
  | nil => simp [removeKey, lookupA]
  | cons p rest ih =>
    obtain ⟨k₀, v₀⟩ := p
    by_cases hk : k₀ = k
    · simp [removeKey, hk, ih]
    · have hk' : k ≠ k₀ := fun h => hk h.symm
      simp [removeKey, hk, lookupA, hk', ih]

theorem lookupA_removeKey_other (d : List (K × V)) (k k' : K)
    (h : k' ≠ k) : lookupA k' (removeKey k d) = lookupA k' d := by
  induction d with
  | nil => simp [removeKey]
  | cons p rest ih =>
    obtain ⟨k₀, v₀⟩ := p
    by_cases hk : k₀ = k
    · have hk' : k' ≠ k₀ := by rw [hk]; exact h
      simp [removeKey, hk, lookupA, hk', h, ih]
    · by_cases hk2 : k' = k₀
      · simp [removeKey, hk, lookupA, hk2]
      · simp [removeKey, hk, lookupA, hk2, ih]

/-! ### Persistence layer: `SerializedDataBase` over a pickle file -/

/-- Exceptions relevant to the embedded fragment of the program. -/
inductive PyError
  | fileNotFound
  | eofError
  | unpicklingError
  | permissionError
  | attributeError
  deriving DecidableEq

/-- States of the backing file.  `blob d` is a well-formed pickle of the
dict `d`; the other constructors record which exception reading the file
raises in Python: a missing file raises `FileNotFoundError` at `open`, a
truncated pickle stream raises `EOFError` inside `pickle.load`, corrupt
bytes raise `pickle.UnpicklingError`, and an unreadable file raises
`PermissionError` at `open`. -/
inductive FileState (K V : Type)
  | missing
  | truncated
  | corrupt
  | unreadable
  | blob (data : List (K × V))
  deriving DecidableEq

/-- `open(self.filename, 'rb')` followed by `pickle.load(f)`: the raw read,
before any exception handling. -/
def readPickle : FileState K V → Except PyError (List (K × V))
  | .missing => .error .fileNotFound
  | .truncated => .error .eofError
  | .corrupt => .error .unpicklingError
  | .unreadable => .error .permissionError
  | .blob d => .ok d

/-- `SerializedDataBase.load`: `try: self.data = pickle.load(f)` with
`except (FileNotFoundError, EOFError): self.data = {}`.  Exactly those two
exception classes are caught; any other exception propagates. -/
def loadResult (f : FileState K V) : Except PyError (List (K × V)) :=
  match readPickle f with
  | .ok d => .ok d
  | .error e =>
    if e = .fileNotFound ∨ e = .eofError then .ok [] else .error e

/-- `SerializedDataBase.save`: `pickle.dump(self.data, f)` after opening the
file with mode `'wb'`, fully overwriting the previous contents. -/
def savedFile (d : List (K × V)) : FileState K V := .blob d

/-! ### `SynchronizedDataBase` -/

/-- Marker that `self.read_lock`, `self.write_lock` and
`self.read_semaphore` were assigned by `__init__`; with any mode other
than `'threads'` or `'processes'` they stay unset (`none`). -/
structure LockSet where
  deriving DecidableEq

/-- The mode branch of `SynchronizedDataBase.__init__`: primitives are
created only for `'threads'` and `'processes'` (thread-local vs
process-shared ones — operationally identical in this model). -/
def initLockSet (mode : String) : Option LockSet :=
  if mode = "threads" then some ⟨⟩
  else if mode = "processes" then some ⟨⟩
  else none

/-- `self.read_limit = 10`. -/
def read_limit : Nat := 10

/-- Sequential state of a `SynchronizedDataBase`: the in-memory dict, the
backing file, a count of completed `save()` calls (to make each disk write
observable), and the optional lock attributes. -/
structure SyncDB (K V : Type) where
  data : List (K × V)
  file : FileState K V
  writeCount : Nat
  locks : Option LockSet
  deriving DecidableEq

/-- `SynchronizedDataBase.__init__(filename, mode)`: the
`SerializedDataBase` constructor runs `self.load()` (which can itself
raise, e.g. on a corrupt file), then the lock attributes are assigned
according to `mode`. -/
def initSyncDB (f : FileState K V) (mode : String) :
    Except PyError (SyncDB K V) :=
  match loadResult f with
  | .error e => .error e
  | .ok d => .ok ⟨d, f, 0, initLockSet mode⟩

/-- One step of the writer protocol, in program order, used to record the
trace a write call performs. -/
inductive Event
  | acqWriteLock
  | acqReadLock
  | acqSemaphore
  | acqDataLock
  | mutateData
  | saveBlob
  | relDataLock
  | relSemaphore
  | relReadLock
  | relWriteLock
  deriving DecidableEq

/-- The event sequence of `value_set`/`value_delete`: `with
self.write_lock`, `with self.read_lock`, the `for _ in
range(self.read_limit): self.read_semaphore.acquire()` drain loop, `with
self.data_lock` around the mutation and `self.save()`, the release loop,
and the two lock exits.  The code runs it unconditionally — nothing in the
write path branches on whether the mutation changed the dict. -/
def writeTrace : List Event :=
  [.acqWriteLock, .acqReadLock]
    ++ List.replicate read_limit .acqSemaphore
    ++ [.acqDataLock, .mutateData, .saveBlob, .relDataLock]
    ++ List.replicate read_limit .relSemaphore
    ++ [.relReadLock, .relWriteLock]

/-- `SynchronizedDataBase.value_set(key, value)`: accessing
`self.write_lock` raises `AttributeError` when it was never assigned;
otherwise run the drain protocol, `super().set_value(key, value)` and
`self.save()` under the data lock, release, and return the result. -/
def value_set (s : SyncDB K V) (k : K) (v : V) :
    Except PyError (Bool × SyncDB K V × List Event) :=
  match s.locks with
  | none => .error .attributeError
  | some _ =>
    let r := set_value ⟨s.data⟩ k v
    .ok (r.1,
         { s with
             data := r.2.data
             file := savedFile r.2.data
             writeCount := s.writeCount + 1 },
         writeTrace)

/-- `SynchronizedDataBase.value_get(key)`: accessing
`self.read_semaphore` raises `AttributeError` when it was never assigned;
otherwise acquire one permit, `self.load()` (replacing the in-memory dict
wholesale — this re-raises whatever `load` raises), look the key up in the
freshly loaded dict, release the permit and return the value. -/
def value_get (s : SyncDB K V) (k : K) :
    Except PyError (Option V × SyncDB K V) :=
  match s.locks with
  | none => .error .attributeError
  | some _ =>
    match loadResult s.file with
    | .error e => .error e
    | .ok d => .ok (get_value ⟨d⟩ k, { s with data := d })

/-- `SynchronizedDataBase.value_delete(key)`: same protocol as
`value_set`, with `super().delete(key)` as the mutation. -/
def value_delete (s : SyncDB K V) (k : K) :
    Except PyError (Option V × SyncDB K V × List Event) :=
  match s.locks with
  | none => .error .attributeError
  | some _ =>
    let r := delete ⟨s.data⟩ k
    .ok (r.1,
         { s with
             data := r.2.data
             file := savedFile r.2.data
             writeCount := s.writeCount + 1 },
         writeTrace)

/-! ### Concurrency model

Interleaving semantics for `SynchronizedDataBase`: every thread runs either
the reader program (`value_get`) or the writer program
(`value_set`/`value_delete`), each decomposed into the atomic
synchronization steps the Python code performs, scheduled in any order.
-/

/-- Atomic instructions of the two thread programs. -/
inductive Instr
  | acqWrite
  | acqRead
  | acqSem
  | acqData
  | mutateI
  | saveI
  | relData
  | relSem
  | relRead
  | relWrite
  | loadI
  | lookupI
  deriving DecidableEq

/-- `value_get`: `self.read_semaphore.acquire()`, `self.load()`,
`super().get_value(key)`, `self.read_semaphore.release()`. -/
def readerProg : List Instr := [.acqSem, .loadI, .lookupI, .relSem]

/-- `value_set` / `value_delete`: enter `write_lock` and `read_lock`,
acquire the reader semaphore `read_limit` times, then under `data_lock`
mutate and `save()`, release the semaphore `read_limit` times, and exit
the two locks. -/
def writerProg : List Instr :=
  [.acqWrite, .acqRead] ++ List.replicate read_limit .acqSem
    ++ [.acqData, .mutateI, .saveI, .relData]
    ++ List.replicate read_limit .relSem
    ++ [.relRead, .relWrite]

/-- The two kinds of thread. -/
inductive TKind
  | reader
  | writer
  deriving DecidableEq

/-- The program a thread of each kind executes. -/
def prog : TKind → List Instr
  | .reader => readerProg
  | .writer => writerProg

/-- A global configuration of `n` threads: each thread's program counter,
the reader-semaphore counter, and the holders of the three mutexes. -/
structure Config (n : Nat) where
  pc : Fin n → Nat
  sem : Nat
  writeLock : Option (Fin n)
  readLock : Option (Fin n)
  dataLock : Option (Fin n)

/-- Initial configuration: every thread at the start of its program, the
semaphore at full capacity `read_limit`, all locks free. -/
def initConfig (n : Nat) : Config n :=
  ⟨fun _ => 0, read_limit, none, none, none⟩

/-- One interleaving step: some thread `t` executes the instruction at its
program counter.  Semaphore `acquire` blocks (has no step) when the
counter is zero; each mutex `acquire` blocks while another holder exists;
`load`/`lookup`/mutate/save just advance. -/
inductive Step {n : Nat} (tk : Fin n → TKind) : Config n → Config n → Prop
  | acqSem {c : Config n} (t : Fin n)
      (hi : (prog (tk t))[c.pc t]? = some .acqSem)
      (hs : 0 < c.sem) :
      Step tk c { c with pc := Function.update c.pc t (c.pc t + 1),
                         sem := c.sem - 1 }
  | relSem {c : Config n} (t : Fin n)
      (hi : (prog (tk t))[c.pc t]? = some .relSem) :
      Step tk c { c with pc := Function.update c.pc t (c.pc t + 1),
                         sem := c.sem + 1 }
  | acqWrite {c : Config n} (t : Fin n)
      (hi : (prog (tk t))[c.pc t]? = some .acqWrite)
      (hl : c.writeLock = none) :
      Step tk c { c with pc := Function.update c.pc t (c.pc t + 1),
                         writeLock := some t }
  | relWrite {c : Config n} (t : Fin n)
      (hi : (prog (tk t))[c.pc t]? = some .relWrite)
      (hl : c.writeLock = some t) :
      Step tk c { c with pc := Function.update c.pc t (c.pc t + 1),
                         writeLock := none }
  | acqRead {c : Config n} (t : Fin n)
      (hi : (prog (tk t))[c.pc t]? = some .acqRead)
      (hl : c.readLock = none) :
      Step tk c { c with pc := Function.update c.pc t (c.pc t + 1),
                         readLock := some t }
  | relRead {c : Config n} (t : Fin n)
      (hi : (prog (tk t))[c.pc t]? = some .relRead)
      (hl : c.readLock = some t) :
      Step tk c { c with pc := Function.update c.pc t (c.pc t + 1),
                         readLock := none }
  | acqData {c : Config n} (t : Fin n)
      (hi : (prog (tk t))[c.pc t]? = some .acqData)
      (hl : c.dataLock = none) :
      Step tk c { c with pc := Function.update c.pc t (c.pc t + 1),
                         dataLock := some t }
  | relData {c : Config n} (t : Fin n)
      (hi : (prog (tk t))[c.pc t]? = some .relData)
      (hl : c.dataLock = some t) :
      Step tk c { c with pc := Function.update c.pc t (c.pc t + 1),
                         dataLock := none }
  | work {c : Config n} (t : Fin n) (i : Instr)
      (hi : (prog (tk t))[c.pc t]? = some i)
      (hw : i = .mutateI ∨ i = .saveI ∨ i = .loadI ∨ i = .lookupI) :
      Step tk c { c with pc := Function.update c.pc t (c.pc t + 1) }

/-- Configurations reachable from the initial one by interleaving. -/
inductive Reachable {n : Nat} (tk : Fin n → TKind) : Config n → Prop
  | start : Reachable tk (initConfig n)
  | step {c c' : Config n} : Reachable tk c → Step tk c c' → Reachable tk c'

/-- Number of `acqSem` instructions in a list. -/
def acqCount : List Instr → Nat
  | [] => 0
  | i :: l => acqCount l + (if i = .acqSem then 1 else 0)

/-- Number of `relSem` instructions in a list. -/
def relCount : List Instr → Nat
  | [] => 0
  | i :: l => relCount l + (if i = .relSem then 1 else 0)

/-- Semaphore permits a thread running `p` holds after executing its first
`k` instructions: acquisitions performed minus releases performed. -/
def heldPermits (p : List Instr) (k : Nat) : ℤ :=
  (acqCount (p.take k) : ℤ) - (relCount (p.take k) : ℤ)

theorem acqCount_append (l₁ l₂ : List Instr) :
    acqCount (l₁ ++ l₂) = acqCount l₁ + acqCount l₂ := by
  induction l₁ with
  | nil => simp [acqCount]
  | cons i l ih => simp [acqCount, ih]; ring

theorem relCount_append (l₁ l₂ : List Instr) :
    relCount (l₁ ++ l₂) = relCount l₁ + relCount l₂ := by
  induction l₁ with
  | nil => simp [relCount]
  | cons i l ih => simp [relCount, ih]; ring

theorem heldPermits_succ (p : List Instr) (k : Nat) (i : Instr)
    (h : p[k]? = some i) :
    heldPermits p (k + 1) =
      heldPermits p k + (if i = .acqSem then 1 else 0)
        - (if i = .relSem then 1 else 0) := by
  have hlt : k < p.length := by
    by_contra hk
    rw [List.getElem?_eq_none (Nat.le_of_not_lt hk)] at h
    exact Option.noConfusion h
  have htake : p.take (k + 1) = p.take k ++ [i] := by
    rw [List.take_succ]
    have : p[k]? = some i := h
    rw [this]
    rfl
  unfold heldPermits
  rw [htake, acqCount_append, relCount_append]
  simp [acqCount, relCount]
  by_cases h1 : i = Instr.acqSem <;> by_cases h2 : i = Instr.relSem <;>
    simp [h1, h2] <;> ring

theorem heldPermits_succ_other (p : List Instr) (k : Nat) (i : Instr)
    (h : p[k]? = some i) (h1 : i ≠ .acqSem) (h2 : i ≠ .relSem) :
    heldPermits p (k + 1) = heldPermits p k := by
  rw [heldPermits_succ p k i h]
  simp [h1, h2]

theorem heldPermits_stable (p : List Instr) (k : Nat) (h : p.length ≤ k) :
    heldPermits p k = heldPermits p p.length := by
  unfold heldPermits
  rw [List.take_of_length_le h, List.take_length]

theorem heldPermits_reader_nonneg (k : Nat) :
    0 ≤ heldPermits readerProg k := by
  by_cases hk : k < 5
  · exact (by decide : ∀ m, m < 5 → 0 ≤ heldPermits readerProg m) k hk
  · have hlen : readerProg.length ≤ k := by
      have : readerProg.length = 4 := by decide
      omega
    rw [heldPermits_stable _ _ hlen]
    decide

theorem heldPermits_writer_nonneg (k : Nat) :
    0 ≤ heldPermits writerProg k := by
  by_cases hk : k < 29
  · exact (by decide : ∀ m, m < 29 → 0 ≤ heldPermits writerProg m) k hk
  · have hlen : writerProg.length ≤ k := by
      have : writerProg.length = 28 := by decide
      omega
    rw [heldPermits_stable _ _ hlen]
    decide

theorem heldPermits_nonneg (t : TKind) (k : Nat) :
    0 ≤ heldPermits (prog t) k := by
  cases t
  · exact heldPermits_reader_nonneg k
  · exact heldPermits_writer_nonneg k

/-- Total permits held across all threads. -/
def permitSum {n : Nat} (tk : Fin n → TKind) (c : Config n) : ℤ :=
  ∑ t : Fin n, heldPermits (prog (tk t)) (c.pc t)

/-- Semaphore accounting invariant: free permits plus held permits equal
the capacity `read_limit`. -/
def SemInv {n : Nat} (tk : Fin n → TKind) (c : Config n) : Prop :=
  (c.sem : ℤ) + permitSum tk c = (read_limit : ℤ)

theorem permitSum_update {n : Nat} (tk : Fin n → TKind)
    (pcf : Fin n → Nat) (t : Fin n) (m : Nat) :
    (∑ x : Fin n, heldPermits (prog (tk x)) (Function.update pcf t m x))
      = (∑ x : Fin n, heldPermits (prog (tk x)) (pcf x))
        + heldPermits (prog (tk t)) m - heldPermits (prog (tk t)) (pcf t) := by
  have hmem : t ∈ (Finset.univ : Finset (Fin n)) := Finset.mem_univ t
  have h1 :
      ∑ x ∈ Finset.univ.erase t,
          heldPermits (prog (tk x)) (Function.update pcf t m x)
        = ∑ x ∈ Finset.univ.erase t, heldPermits (prog (tk x)) (pcf x) := by
    refine Finset.sum_congr rfl (fun x hx => ?_)
    have hne : x ≠ t := Finset.ne_of_mem_erase hx
    rw [Function.update_noteq hne]
  have h2 :
      heldPermits (prog (tk t)) (Function.update pcf t m t)
        + ∑ x ∈ Finset.univ.erase t,
            heldPermits (prog (tk x)) (Function.update pcf t m x)
        = ∑ x : Fin n, heldPermits (prog (tk x)) (Function.update pcf t m x) :=
    Finset.add_sum_erase _
      (fun x => heldPermits (prog (tk x)) (Function.update pcf t m x)) hmem
  have h3 :
      heldPermits (prog (tk t)) (pcf t)
        + ∑ x ∈ Finset.univ.erase t, heldPermits (prog (tk x)) (pcf x)
        = ∑ x : Fin n, heldPermits (prog (tk x)) (pcf x) :=
    Finset.add_sum_erase _ (fun x => heldPermits (prog (tk x)) (pcf x)) hmem
  rw [Function.update_same] at h2
  rw [← h2, ← h3, h1]
  ring

theorem semInv_step {n : Nat} (tk : Fin n → TKind) {c c' : Config n}
    (h : Step tk c c') (hinv : SemInv tk c) : SemInv tk c' := by
  unfold SemInv permitSum at hinv ⊢
  cases h with
  | acqSem t hi hs =>
    have hd := heldPermits_succ _ _ _ hi
    simp only [if_pos rfl] at hd
    have hd' : heldPermits (prog (tk t)) (c.pc t + 1)
        = heldPermits (prog (tk t)) (c.pc t) + 1 := by
      rw [hd]; simp
    simp only [permitSum_update]
    rw [hd']
    omega
  | relSem t hi =>
    have hd := heldPermits_succ _ _ _ hi
    have hd' : heldPermits (prog (tk t)) (c.pc t + 1)
        = heldPermits (prog (tk t)) (c.pc t) - 1 := by
      rw [hd]; simp
    simp only [permitSum_update]
    rw [hd']
    omega
  | acqWrite t hi hl =>
    have hd := heldPermits_succ_other _ _ _ hi (by simp) (by simp)
    simp only [permitSum_update]
    rw [hd]
    omega
  | relWrite t hi hl =>
    have hd := heldPermits_succ_other _ _ _ hi (by simp) (by simp)
    simp only [permitSum_update]
    rw [hd]
    omega
  | acqRead t hi hl =>
    have hd := heldPermits_succ_other _ _ _ hi (by simp) (by simp)
    simp only [permitSum_update]
    rw [hd]
    omega
  | relRead t hi hl =>
    have hd := heldPermits_succ_other _ _ _ hi (by simp) (by simp)
    simp only [permitSum_update]
    rw [hd]
    omega
  | acqData t hi hl =>
    have hd := heldPermits_succ_other _ _ _ hi (by simp) (by simp)
    simp only [permitSum_update]
    rw [hd]
    omega
  | relData t hi hl =>
    have hd := heldPermits_succ_other _ _ _ hi (by simp) (by simp)
    simp only [permitSum_update]
    rw [hd]
    omega
  | work t i hi hw =>
    have h1 : i ≠ Instr.acqSem := by rcases hw with h | h | h | h <;> simp [h]
    have h2 : i ≠ Instr.relSem := by rcases hw with h | h | h | h <;> simp [h]
    have hd := heldPermits_succ_other _ _ _ hi h1 h2
    simp only [permitSum_update]
    rw [hd]
    omega

theorem semInv_reachable {n : Nat} (tk : Fin n → TKind) {c : Config n}
    (h : Reachable tk c) : SemInv tk c := by
  induction h with
  | start =>
    unfold SemInv permitSum initConfig
    simp [heldPermits, acqCount, relCount]
  | step _ hstep ih => exact semInv_step tk hstep ih

/-- In the writer program, positions 12–16 span the `data_lock` /
mutate / `save()` block; throughout it the writer holds all `read_limit`
permits. -/
theorem heldPermits_writer_busy (m : Nat) (h1 : 12 ≤ m) (h2 : m ≤ 16) :
    heldPermits writerProg m = 10 :=
  (by decide : ∀ m, m < 17 → 12 ≤ m → heldPermits writerProg m = 10)
    m (by omega) h1

/-- In the reader program, positions 1–3 span the `load()` / lookup
block; throughout it the reader holds one permit. -/
theorem heldPermits_reader_busy (m : Nat) (h1 : 1 ≤ m) (h2 : m ≤ 3) :
    heldPermits readerProg m = 1 :=
  (by decide : ∀ m, m < 4 → 1 ≤ m → heldPermits readerProg m = 1)
    m (by omega) h1

/-- Two threads of different kinds are distinct. -/
theorem ne_of_kinds {n : Nat} (tk : Fin n → TKind) (w r : Fin n)
    (hw : tk w = .writer) (hr : tk r = .reader) : w ≠ r := by
  intro h
  rw [h, hr] at hw
  exact TKind.noConfusion hw

/-- The total held permits are at least those of one writer and one
reader taken together. -/
theorem permitSum_lower_bound {n : Nat} (tk : Fin n → TKind) (c : Config n)
    (w r : Fin n) (hwr : w ≠ r) :
    heldPermits (prog (tk w)) (c.pc w) + heldPermits (prog (tk r)) (c.pc r)
      ≤ permitSum tk c := by
  classical
  have hmemw : w ∈ (Finset.univ : Finset (Fin n)) := Finset.mem_univ w
  have hmemr : r ∈ Finset.univ.erase w :=
    Finset.mem_erase.mpr ⟨hwr.symm, Finset.mem_univ r⟩
  have h1 : heldPermits (prog (tk w)) (c.pc w)
      + ∑ x ∈ Finset.univ.erase w, heldPermits (prog (tk x)) (c.pc x)
      = permitSum tk c :=
    Finset.add_sum_erase _ (fun x => heldPermits (prog (tk x)) (c.pc x)) hmemw
  have h2 : heldPermits (prog (tk r)) (c.pc r)
      + ∑ x ∈ (Finset.univ.erase w).erase r,
          heldPermits (prog (tk x)) (c.pc x)
      = ∑ x ∈ Finset.univ.erase w, heldPermits (prog (tk x)) (c.pc x) :=
    Finset.add_sum_erase _ (fun x => heldPermits (prog (tk x)) (c.pc x)) hmemr
  have h3 : (0 : ℤ) ≤ ∑ x ∈ (Finset.univ.erase w).erase r,
      heldPermits (prog (tk x)) (c.pc x) :=
    Finset.sum_nonneg (fun x _ => heldPermits_nonneg (tk x) (c.pc x))
  omega

/-! ### Claim theorems -/

/-- C1: for every key `k` and value `v`: if `k` is absent from the
mapping, `set_value(k, v)` inserts the binding and returns `True`, and a
subsequent `get_value(k)` returns `v`; if `k` is already present with some
value `w`, `set_value(k, v2)` returns `False`, does not overwrite, and
`get_value(k)` still returns `w`. -/
theorem set_value_insert_if_absent (db db' : DataBase K V) (k : K)
    (v v2 w : V)
    (habs : get_value db k = none)
    (hpres : get_value db' k = some w) :
    (set_value db k v).1 = true
    ∧ get_value (set_value db k v).2 k = some v
    ∧ (set_value db' k v2).1 = false
    ∧ (set_value db' k v2).2 = db'
    ∧ get_value (set_value db' k v2).2 k = some w := by
  rw [get_value_eq_lookupA] at habs hpres
  refine ⟨?_, ?_, ?_, ?_, ?_⟩
  · simp [set_value, habs]
  · simp [set_value, habs, get_value_eq_lookupA]
    exact lookupA_append_self _ _ _ habs
  · simp [set_value, hpres]
  · simp [set_value, hpres]
  · simp [set_value, hpres, get_value_eq_lookupA]

/-- C1 witness: the concrete scenario `set(0, 1)` on the empty store and
`set(0, 2)` on a store already holding `{0: 5}`. -/
theorem set_value_insert_if_absent_witness :
    (set_value (DataBase.mk ([] : List (Nat × Nat))) 0 1).1 = true
    ∧ get_value (set_value (DataBase.mk ([] : List (Nat × Nat))) 0 1).2 0
        = some 1
    ∧ (set_value (DataBase.mk [(0, 5)]) 0 2).1 = false
    ∧ (set_value (DataBase.mk [(0, 5)]) 0 2).2 = DataBase.mk [(0, 5)]
    ∧ get_value (set_value (DataBase.mk [(0, 5)]) 0 2).2 0 = some 5 :=
  set_value_insert_if_absent ⟨[]⟩ ⟨[(0, 5)]⟩ 0 1 2 5 (by decide) (by decide)

/-- C2: for every key `k`: if `k` is present with value `w`, `delete(k)`
removes the binding and returns `w`, and a subsequent `get_value(k)`
returns `None`; if `k` is absent, `delete(k)` returns `None` and the
mapping is unchanged. -/
theorem delete_removes_if_present (db db' : DataBase K V) (k : K) (w : V)
    (hpres : get_value db k = some w)
    (habs : get_value db' k = none) :
    (delete db k).1 = some w
    ∧ get_value (delete db k).2 k = none
    ∧ (delete db' k).1 = none
    ∧ (delete db' k).2 = db' := by
  rw [get_value_eq_lookupA] at habs hpres
  refine ⟨?_, ?_, ?_, ?_⟩
  · simp [delete, hpres]
  · simp [delete, hpres, get_value_eq_lookupA, lookupA_removeKey_self]
  · simp [delete, habs]
  · simp [delete, habs]

/-- C2 witness: `delete(0)` on `{0: 7}` returns `7` and empties the
binding; `delete(1)` on `{0: 7}` returns `None` and changes nothing. -/
theorem delete_removes_if_present_witness :
    (delete (DataBase.mk [(0, 7)]) 0).1 = some 7
    ∧ get_value (delete (DataBase.mk ([(0, 7)] : List (Nat × Nat))) 0).2 0
        = none
    ∧ (delete (DataBase.mk [(1, 4)]) 0).1 = none
    ∧ (delete (DataBase.mk [(1, 4)]) 0).2 = DataBase.mk [(1, 4)] :=
  delete_removes_if_present ⟨[(0, 7)]⟩ ⟨[(1, 4)]⟩ 0 7 (by decide) (by decide)

/-- C9: frame property — for every key `k'` different from the argument
key `k`, `set_value(k, v)` and `delete(k)` leave the binding of `k'`
unchanged. -/
theorem mutations_frame_other_keys (db : DataBase K V) (k k' : K) (v : V)
    (h : k' ≠ k) :
    get_value (set_value db k v).2 k' = get_value db k'
    ∧ get_value (delete db k).2 k' = get_value db k' := by
  constructor
  · unfold set_value
    cases hl : (lookupA k db.data).isSome
    · simp [hl, get_value_eq_lookupA, lookupA_append_other _ _ _ _ h]
    · simp [hl]
  · unfold delete
    cases hl : (lookupA k db.data).isSome
    · simp [hl]
    · simp [hl, get_value_eq_lookupA, lookupA_removeKey_other _ _ _ h]

/-- C9 witness: mutating key `0` in `{0: 1, 2: 3}` leaves the binding of
key `2` unchanged. -/
theorem mutations_frame_other_keys_witness :
    get_value (set_value (DataBase.mk [(0, 1), (2, 3)]) 0 9).2 2
        = get_value (DataBase.mk [(0, 1), (2, 3)]) 2
    ∧ get_value (delete (DataBase.mk ([(0, 1), (2, 3)] : List (Nat × Nat))) 0).2 2
        = get_value (DataBase.mk [(0, 1), (2, 3)]) 2 :=
  mutations_frame_other_keys ⟨[(0, 1), (2, 3)]⟩ 0 2 9 (by decide)

/-- C3 counterexample: restore does fail the caller on corrupt or
unreadable contents — only `FileNotFoundError` and `EOFError` are caught,
so `pickle.UnpicklingError` (corrupt blob) and `PermissionError`
(unreadable file) propagate instead of yielding an empty snapshot. -/
theorem load_corrupt_raises :
    loadResult (K := Nat) (V := Nat) FileState.corrupt
        = Except.error PyError.unpicklingError
    ∧ loadResult (K := Nat) (V := Nat) FileState.unreadable
        = Except.error PyError.permissionError :=
  ⟨rfl, rfl⟩

/-- C3 amended: restore never fails the caller when the backing file is
missing (`FileNotFoundError`) or truncated (`EOFError`) — the snapshot
becomes the empty mapping; any other read failure (corrupt blob,
unreadable file) raises. -/
theorem load_masks_missing_and_truncated :
    loadResult (FileState.missing : FileState K V) = Except.ok []
    ∧ loadResult (FileState.truncated : FileState K V) = Except.ok []
    ∧ loadResult (FileState.corrupt : FileState K V)
        = Except.error PyError.unpicklingError
    ∧ loadResult (FileState.unreadable : FileState K V)
        = Except.error PyError.permissionError :=
  ⟨rfl, rfl, rfl, rfl⟩

/-- The synchronized store over an empty dict persisted at the backing
path, with the lock attributes assigned. -/
def emptySync (K V : Type) : SyncDB K V :=
  ⟨[], savedFile [], 0, some ⟨⟩⟩

/-- C4: immediately after any successful `value_set` or `value_delete`
call completes, the in-memory snapshot and the on-disk blob are equal —
the mutation is persisted before write access is released. -/
theorem write_persists_before_release (s : SyncDB K V) (k : K) (v : V)
    (out : Bool × SyncDB K V × List Event)
    (res : Option V × SyncDB K V × List Event)
    (h1 : value_set s k v = Except.ok out)
    (h2 : value_delete s k = Except.ok res) :
    out.2.1.file = savedFile out.2.1.data
    ∧ res.2.1.file = savedFile res.2.1.data := by
  cases hl : s.locks with
  | none => simp [value_set, hl] at h1
  | some l =>
    simp [value_set, hl] at h1
    simp [value_delete, hl] at h2
    subst h1
    subst h2
    exact ⟨rfl, rfl⟩

/-- C4 witness: a concrete `value_set` and `value_delete` on the empty
synchronized store, whose resulting snapshots match the written blob. -/
theorem write_persists_before_release_witness :
    ((true, (⟨[(0, 1)], savedFile [(0, 1)], 1, some ⟨⟩⟩ : SyncDB Nat Nat),
        writeTrace) : Bool × SyncDB Nat Nat × List Event).2.1.file
      = savedFile ((true,
          (⟨[(0, 1)], savedFile [(0, 1)], 1, some ⟨⟩⟩ : SyncDB Nat Nat),
          writeTrace) : Bool × SyncDB Nat Nat × List Event).2.1.data
    ∧ ((none, (⟨[], savedFile [], 1, some ⟨⟩⟩ : SyncDB Nat Nat),
        writeTrace) : Option Nat × SyncDB Nat Nat × List Event).2.1.file
      = savedFile ((none,
          (⟨[], savedFile [], 1, some ⟨⟩⟩ : SyncDB Nat Nat),
          writeTrace) : Option Nat × SyncDB Nat Nat × List Event).2.1.data :=
  write_persists_before_release (emptySync Nat Nat) 0 1 _ _ rfl rfl

/-- C5: `value_get(k)` reloads the mapping wholesale from the backing
file and returns the lookup against that freshly loaded mapping: its
result is the binding of `k` in the on-disk blob (or `None`), independent
of the pre-call in-memory state. -/
theorem value_get_reads_disk (s : SyncDB K V) (k : K) (d : List (K × V))
    (l : LockSet) (hl : s.locks = some l) (hf : s.file = FileState.blob d) :
    value_get s k = Except.ok (lookupA k d, { s with data := d })
    ∧ ∀ d₀, value_get { s with data := d₀ } k = value_get s k := by
  constructor
  · simp [value_get, hl, hf, loadResult, readPickle, get_value_eq_lookupA]
  · intro d₀
    simp [value_get, hl, hf]

/-- C5 witness: a store whose memory says `{5: 5}` but whose blob says
`{0: 2}` answers `value_get(0)` from the blob. -/
theorem value_get_reads_disk_witness :
    value_get (⟨[(5, 5)], FileState.blob [(0, 2)], 0, some ⟨⟩⟩ : SyncDB Nat Nat) 0
        = Except.ok (lookupA 0 [(0, 2)],
            (⟨[(0, 2)], FileState.blob [(0, 2)], 0, some ⟨⟩⟩ : SyncDB Nat Nat))
    ∧ ∀ d₀,
        value_get (⟨d₀, FileState.blob [(0, 2)], 0, some ⟨⟩⟩ : SyncDB Nat Nat) 0
          = value_get (⟨[(5, 5)], FileState.blob [(0, 2)], 0, some ⟨⟩⟩ : SyncDB Nat Nat) 0 :=
  value_get_reads_disk ⟨[(5, 5)], FileState.blob [(0, 2)], 0, some ⟨⟩⟩ 0
    [(0, 2)] ⟨⟩ rfl rfl

/-- C6: persist-then-restore is a round trip — loading what `save` wrote
yields an equal snapshot; in particular, after `value_set(k, v)` on the
empty store, reopening a `SynchronizedDataBase` against the same backing
file and calling `value_get(k)` returns `v`. -/
theorem persist_restore_roundtrip (d : List (K × V)) (k : K) (v : V) :
    loadResult (savedFile d) = Except.ok d
    ∧ value_set (emptySync K V) k v
        = Except.ok (true,
            (⟨[(k, v)], savedFile [(k, v)], 1, some ⟨⟩⟩ : SyncDB K V),
            writeTrace)
    ∧ initSyncDB (savedFile [(k, v)]) "threads"
        = Except.ok (⟨[(k, v)], savedFile [(k, v)], 0, some ⟨⟩⟩ : SyncDB K V)
    ∧ value_get (⟨[(k, v)], savedFile [(k, v)], 0, some ⟨⟩⟩ : SyncDB K V) k
        = Except.ok (some v,
            (⟨[(k, v)], savedFile [(k, v)], 0, some ⟨⟩⟩ : SyncDB K V)) := by
  refine ⟨rfl, ?_, ?_, ?_⟩
  · simp [value_set, emptySync, set_value, lookupA, savedFile]
  · simp [initSyncDB, loadResult, readPickle, savedFile, initLockSet]
  · simp [value_get, loadResult, readPickle, savedFile,
      get_value_eq_lookupA, lookupA]

/-- C7: a write that does not change the mapping (`value_set` on a
present key, `value_delete` on an absent key) still runs the full
drain/persist/release protocol and still writes the blob, re-serializing
the unchanged snapshot. -/
theorem noop_write_still_persists (s s' : SyncDB K V) (k k' : K)
    (v w : V) (l l' : LockSet)
    (hl : s.locks = some l) (hl' : s'.locks = some l')
    (hpres : lookupA k s.data = some w)
    (habs : lookupA k' s'.data = none) :
    value_set s k v
      = Except.ok (false,
          { s with file := savedFile s.data,
                   writeCount := s.writeCount + 1 }, writeTrace)
    ∧ value_delete s' k'
      = Except.ok (none,
          { s' with file := savedFile s'.data,
                    writeCount := s'.writeCount + 1 }, writeTrace)
    ∧ writeTrace.count Event.acqSemaphore = read_limit
    ∧ writeTrace.count Event.relSemaphore = read_limit
    ∧ Event.saveBlob ∈ writeTrace := by
  refine ⟨?_, ?_, by decide, by decide, by decide⟩
  · simp [value_set, hl, set_value, hpres]
  · simp [value_delete, hl', delete, habs]

/-- C7 witness: `value_set(0, 9)` on a store holding `{0: 5}` and
`value_delete(1)` on the same snapshot both rewrite the unchanged blob. -/
theorem noop_write_still_persists_witness :
    value_set (⟨[(0, 5)], savedFile [(0, 5)], 3, some ⟨⟩⟩ : SyncDB Nat Nat) 0 9
      = Except.ok (false,
          (⟨[(0, 5)], savedFile [(0, 5)], 4, some ⟨⟩⟩ : SyncDB Nat Nat),
          writeTrace)
    ∧ value_delete (⟨[(0, 5)], savedFile [(0, 5)], 3, some ⟨⟩⟩ : SyncDB Nat Nat) 1
      = Except.ok (none,
          (⟨[(0, 5)], savedFile [(0, 5)], 4, some ⟨⟩⟩ : SyncDB Nat Nat),
          writeTrace)
    ∧ writeTrace.count Event.acqSemaphore = read_limit
    ∧ writeTrace.count Event.relSemaphore = read_limit
    ∧ Event.saveBlob ∈ writeTrace :=
  noop_write_still_persists ⟨[(0, 5)], savedFile [(0, 5)], 3, some ⟨⟩⟩
    ⟨[(0, 5)], savedFile [(0, 5)], 3, some ⟨⟩⟩ 0 1 9 5 ⟨⟩ ⟨⟩
    rfl rfl rfl rfl

/-- C10: constructing `SynchronizedDataBase` with a mode other than
`'threads'` or `'processes'` succeeds (no error is raised), but leaves the
lock attributes unset, so every subsequent `value_set`, `value_get` or
`value_delete` call fails with `AttributeError` instead of performing the
operation. -/
theorem bad_mode_attribute_error (mode : String) (f : FileState K V)
    (d : List (K × V)) (k : K) (v : V)
    (hm1 : mode ≠ "threads") (hm2 : mode ≠ "processes")
    (hload : loadResult f = Except.ok d) :
    initSyncDB f mode = Except.ok (⟨d, f, 0, none⟩ : SyncDB K V)
    ∧ value_set (⟨d, f, 0, none⟩ : SyncDB K V) k v
        = Except.error PyError.attributeError
    ∧ value_get (⟨d, f, 0, none⟩ : SyncDB K V) k
        = Except.error PyError.attributeError
    ∧ value_delete (⟨d, f, 0, none⟩ : SyncDB K V) k
        = Except.error PyError.attributeError := by
  refine ⟨?_, rfl, rfl, rfl⟩
  simp [initSyncDB, hload, initLockSet, hm1, hm2]

/-- C10 witness: mode `'foo'` on a well-formed empty blob. -/
theorem bad_mode_attribute_error_witness :
    initSyncDB (FileState.blob ([] : List (Nat × Nat))) "foo"
        = Except.ok (⟨[], FileState.blob [], 0, none⟩ : SyncDB Nat Nat)
    ∧ value_set (⟨[], FileState.blob [], 0, none⟩ : SyncDB Nat Nat) 0 1
        = Except.error PyError.attributeError
    ∧ value_get (⟨[], FileState.blob [], 0, none⟩ : SyncDB Nat Nat) 0
        = Except.error PyError.attributeError
    ∧ value_delete (⟨[], FileState.blob [], 0, none⟩ : SyncDB Nat Nat) 0
        = Except.error PyError.attributeError :=
  bad_mode_attribute_error "foo" (FileState.blob []) [] 0 1
    (by decide) (by decide) rfl

/-- C8: in every reachable interleaving of reader and writer threads, a
writer inside its mutate-and-persist block (program positions 12–16:
`data_lock` entry, mutation, `save()`, `data_lock` exit — where it holds
all `read_limit` semaphore permits) never coexists with a reader inside
its restore-and-lookup block (positions 1–3: `load()`, lookup, up to its
permit release): the drain of all `read_limit` reader permits excludes
readers for the whole mutation-and-persist step. -/
theorem writer_mutation_never_overlaps_reader {n : Nat}
    (tk : Fin n → TKind) (c : Config n) (w r : Fin n)
    (hre : Reachable tk c) (hw : tk w = TKind.writer)
    (hr : tk r = TKind.reader) :
    ¬ (12 ≤ c.pc w ∧ c.pc w ≤ 16 ∧ 1 ≤ c.pc r ∧ c.pc r ≤ 3) := by
  rintro ⟨h1, h2, h3, h4⟩
  have hinv := semInv_reachable tk hre
  have hwr := ne_of_kinds tk w r hw hr
  have hbound := permitSum_lower_bound tk c w r hwr
  have hhw : heldPermits (prog (tk w)) (c.pc w) = 10 := by
    rw [hw]
    exact heldPermits_writer_busy _ h1 h2
  have hhr : heldPermits (prog (tk r)) (c.pc r) = 1 := by
    rw [hr]
    exact heldPermits_reader_busy _ h3 h4
  rw [hhw, hhr] at hbound
  unfold SemInv at hinv
  have hrl : ((read_limit : Nat) : ℤ) = 10 := rfl
  rw [hrl] at hinv
  omega

/-- One writer (thread 0) and one reader (thread 1). -/
def twoThreads : Fin 2 → TKind :=
  fun i => if (i : Nat) = 0 then TKind.writer else TKind.reader

/-- C8 witness: the theorem applied to the reachable initial
configuration of one writer and one reader. -/
theorem writer_mutation_never_overlaps_reader_witness :
    ¬ (12 ≤ (initConfig 2).pc 0 ∧ (initConfig 2).pc 0 ≤ 16
       ∧ 1 ≤ (initConfig 2).pc 1 ∧ (initConfig 2).pc 1 ≤ 3) :=
  writer_mutation_never_overlaps_reader twoThreads (initConfig 2) 0 1
    Reachable.start (by decide) (by decide)

/-- Non-vacuity of the exclusion property: the writer really can reach
its mutation step (position 13, about to mutate) while the reader is
still at its entry point — the guarded interleaving admits the full
drain. -/
theorem writer_reaches_mutation :
    ∃ c : Config 2, Reachable twoThreads c ∧ c.pc 0 = 13 ∧ c.pc 1 = 0 := by
  have h0 : Reachable twoThreads (initConfig 2) := Reachable.start
  have h1 := Reachable.step h0 (Step.acqWrite 0 (by decide) (by decide))
  have h2 := Reachable.step h1 (Step.acqRead 0 (by decide) (by decide))
  have h3 := Reachable.step h2 (Step.acqSem 0 (by decide) (by decide))
  have h4 := Reachable.step h3 (Step.acqSem 0 (by decide) (by decide))
  have h5 := Reachable.step h4 (Step.acqSem 0 (by decide) (by decide))
  have h6 := Reachable.step h5 (Step.acqSem 0 (by decide) (by decide))
  have h7 := Reachable.step h6 (Step.acqSem 0 (by decide) (by decide))
  have h8 := Reachable.step h7 (Step.acqSem 0 (by decide) (by decide))
  have h9 := Reachable.step h8 (Step.acqSem 0 (by decide) (by decide))
  have h10 := Reachable.step h9 (Step.acqSem 0 (by decide) (by decide))
  have h11 := Reachable.step h10 (Step.acqSem 0 (by decide) (by decide))
  have h12 := Reachable.step h11 (Step.acqSem 0 (by decide) (by decide))
  have h13 := Reachable.step h12 (Step.acqData 0 (by decide) (by decide))
  exact ⟨_, h13, by decide, by decide⟩

end DB
